import Mathlib

/-!
Verification of the path-generation simulation engine of the
pubg-recommendation-system repository (src/recommender.py, src/player_info.py).

The Python functions are shallowly embedded: integer player coordinates become
`ℤ`, the game-state clock becomes `ℚ` (it only ever holds quarter-integer
values, on which Python float arithmetic is exact), and safe-zone data becomes
`ℝ` (the source computes with `math.sqrt`, `cos`, `sin`, `atan2`).  Randomness
is made explicit: every call to the library's random primitives consumes a
value from a caller-supplied stream, so the embedded functions are ordinary
functions of their inputs plus those streams.
-/

/-- Embedding of `player_info.round_raw`: `int((raw // 10000) * 10000 + 5000)`.
Python `//` on floats is the floor, and the final `int` conversion is exact
because its argument is already an integer value. -/
noncomputable def round_raw (raw : ℝ) : ℤ :=
  ⌊raw / 10000⌋ * 10000 + 5000

/-- Embedding of `recommender.in_zone`: the Euclidean distance from `(x, y)`
to the zone center is strictly less than the zone radius. -/
def in_zone (x y zone_x zone_y zone_r : ℝ) : Prop :=
  Real.sqrt ((x - zone_x) ^ 2 + (y - zone_y) ^ 2) < zone_r

/-- Embedding of `recommender.gen_new_safezone`.  The body would compute
`new_r = curr_r * rad_decrease` and then sample a new center, but its first
call `random()` (recommender.py:45) raises
`TypeError: 'module' object is not callable`: the `import random` statement at
recommender.py:21 rebinds the name `random` to the module, shadowing the
function imported by `from random import random, randint` at line 17 (only
`randint` survives the shadowing).  The function therefore raises on every
call and never returns a zone; the raised exception is modelled as `none`.
No randomness is consumed (the call into the generator never happens). -/
def gen_new_safezone (curr_x curr_y curr_r rad_decrease : ℝ) :
    Option (ℝ × ℝ × ℝ) :=
  none

/-- Model of the C-library `math.atan2(y, x)` used by the source (standard
piecewise definition in terms of `arctan`). -/
noncomputable def atan2 (y x : ℝ) : ℝ :=
  if 0 < x then Real.arctan (y / x)
  else if x < 0 then
    (if 0 ≤ y then Real.arctan (y / x) + Real.pi else Real.arctan (y / x) - Real.pi)
  else
    (if 0 < y then Real.pi / 2 else if y < 0 then -(Real.pi / 2) else 0)

/-- Embedding of `recommender.get_closest_to_safezone`: move `distance - safe_r`
units from the player position toward the zone center, then quantize each
coordinate with `round_raw`. -/
noncomputable def get_closest_to_safezone (x y : ℤ) (safe_x safe_y safe_r : ℝ) :
    ℤ × ℤ :=
  let distance := Real.sqrt (((x : ℝ) - safe_x) ^ 2 + ((y : ℝ) - safe_y) ^ 2)
  let to_move := distance - safe_r
  let angle := atan2 (safe_y - (y : ℝ)) (safe_x - (x : ℝ))
  (round_raw ((x : ℝ) + to_move * Real.cos angle),
   round_raw ((y : ℝ) + to_move * Real.sin angle))

open Classical in
/-- Embedding of `recommender.gen_candidate_locations`: the two nested
`range(curr - 10000, curr + 20000, 10000)` loops enumerate exactly
`curr - 10000, curr, curr + 10000` in each axis; a pair is kept when
`in_zone` holds for it. -/
noncomputable def gen_candidate_locations (curr_x curr_y : ℤ)
    (next_safe_x next_safe_y next_safe_r : ℝ) : List (ℤ × ℤ) :=
  [curr_x - 10000, curr_x, curr_x + 10000].flatMap fun x =>
    [curr_y - 10000, curr_y, curr_y + 10000].flatMap fun y =>
      if in_zone (x : ℝ) (y : ℝ) next_safe_x next_safe_y next_safe_r then [(x, y)]
      else []

/-- The rank-prediction model consumed by the engine: six-number state vector
in, one integer rank class out (the result of `model.predict(...)` followed by
`int(...)` in `recommender.predict_rank`). -/
abbrev Model := ℚ → ℤ → ℤ → ℝ → ℝ → ℝ → ℤ

/-- Embedding of `recommender.predict_rank`: apply the model to the state
vector `(game_state, x, y, safe_x, safe_y, safe_r)`. -/
def predict_rank (game_state : ℚ) (x y : ℤ) (safe_x safe_y safe_r : ℝ)
    (model : Model) : ℤ :=
  model game_state x y safe_x safe_y safe_r

/-- The bucket `ranks[k]` built by the candidate loop of
`recommender.get_next_loc`: the candidates whose predicted rank is `k`, in
candidate order. -/
noncomputable def rank_bucket (game_state : ℚ) (x y : ℤ) (safe_x safe_y safe_r : ℝ)
    (model : Model) (k : ℤ) : List (ℤ × ℤ) :=
  (gen_candidate_locations x y safe_x safe_y safe_r).filter fun c =>
    decide (predict_rank game_state c.1 c.2 safe_x safe_y safe_r model = k)

open Classical in
/-- Embedding of `recommender.get_next_loc`.  The library call
`randint(0, len(l) - 1)` is modelled as `u % l.length` for the stream value `u`
supplied by the caller.  The Python `KeyError` raised while filling the
`ranks` dictionary when some candidate's predicted rank is outside
`{0, 1, 2, 3, 4}` is modelled as the `none` result. -/
noncomputable def get_next_loc (game_state : ℚ) (x y : ℤ)
    (safe_x safe_y safe_r : ℝ) (model : Model) (u : ℕ) : Option (ℤ × ℤ) :=
  let candidates := gen_candidate_locations x y safe_x safe_y safe_r
  if candidates.length = 0 then
    some (get_closest_to_safezone x y safe_x safe_y safe_r)
  else if ∃ c ∈ candidates,
      predict_rank game_state c.1 c.2 safe_x safe_y safe_r model ∉
        ([0, 1, 2, 3, 4] : List ℤ) then
    none
  else
    let ranks := rank_bucket game_state x y safe_x safe_y safe_r model
    if (ranks 0).length > 0 then
      some ((ranks 0).getD (u % (ranks 0).length) (0, 0))
    else if (ranks 1).length > 0 then
      some ((ranks 1).getD (u % (ranks 1).length) (0, 0))
    else if (ranks 2).length > 0 then
      some ((ranks 2).getD (u % (ranks 2).length) (0, 0))
    else if (ranks 3).length > 0 then
      some ((ranks 3).getD (u % (ranks 3).length) (0, 0))
    else if (ranks 4).length > 0 then
      some ((ranks 4).getD (u % (ranks 4).length) (0, 0))
    else
      some (-1, -1)

/-- One row of the path DataFrame built by `recommender.gen_path`:
`{"x": ..., "y": ..., "game_state": ..., "safe_x": ..., "safe_y": ..., "safe_r": ...}`. -/
structure PathPoint where
  x : ℤ
  y : ℤ
  game_state : ℚ
  safe_x : ℝ
  safe_y : ℝ
  safe_r : ℝ

open Classical in
/-- The `while game_state < end_state` loop of `recommender.gen_path`.
`u` supplies the `randint` draws of `get_next_loc`, indexed by the iteration
counter; `z` is the stream the `random()` pairs of the zone updates would
consume — it is never drawn from, because every call to `gen_new_safezone`
raises before touching the generator, but it remains an input of the modelled
program.  After each iteration the source runs
`if int(game_state) == game_state: ... = gen_new_safezone(...)`
(recommender.py:218-219) — the floor test, since `game_state ≥ 0.5`
throughout — and this check also fires on the `(-1, -1)` branch, where
`game_state` has just been set to `end_state`.  Whenever the update fires,
the `TypeError` raised by `gen_new_safezone` propagates out of `gen_path`
(modelled as `none`). -/
noncomputable def gen_path_loop (model : Model) (u : ℕ → ℕ) (z : ℕ → ℝ × ℝ)
    (end_state game_state : ℚ) (curr_x curr_y : ℤ) (safe_x safe_y safe_r : ℝ)
    (path : List PathPoint) (step : ℕ) : Option (List PathPoint) :=
  if h : game_state < end_state then
    match get_next_loc game_state curr_x curr_y safe_x safe_y safe_r model (u step) with
    | none => none
    | some (nx, ny) =>
      if nx = -1 ∧ ny = -1 then
        if (⌊end_state⌋ : ℚ) = end_state then
          match gen_new_safezone safe_x safe_y safe_r (1/2) with
          | none => none
          | some _ => some path
        else some path
      else
        let path' := path ++ [⟨nx, ny, game_state, safe_x, safe_y, safe_r⟩]
        let gs' : ℚ := game_state + 1/4
        if (⌊gs'⌋ : ℚ) = gs' then
          match gen_new_safezone safe_x safe_y safe_r (1/2) with
          | none => none
          | some zone' =>
            gen_path_loop model u z end_state gs' nx ny zone'.1 zone'.2.1
              zone'.2.2 path' (step + 1)
        else
          gen_path_loop model u z end_state gs' nx ny safe_x safe_y safe_r
            path' (step + 1)
  else some path
termination_by (⌈(end_state - game_state) * 4⌉).toNat
decreasing_by
  · have hq : (0 : ℚ) < (end_state - game_state) * 4 := by linarith
    have h1 : (end_state - (game_state + 1/4)) * 4 =
        (end_state - game_state) * 4 - 1 := by ring
    have h2 : 0 < ⌈(end_state - game_state) * 4⌉ := Int.ceil_pos.mpr hq
    simp only [h1, Int.ceil_sub_one]
    omega
  · have hq : (0 : ℚ) < (end_state - game_state) * 4 := by linarith
    have h1 : (end_state - (game_state + 1/4)) * 4 =
        (end_state - game_state) * 4 - 1 := by ring
    have h2 : 0 < ⌈(end_state - game_state) * 4⌉ := Int.ceil_pos.mpr hq
    simp only [h1, Int.ceil_sub_one]
    omega

/-- Embedding of `recommender.gen_path`.  The pool of possible first safe
zones is a list of `(x, y, radius)` rows; the `DataFrame.sample(n=1)` call is
modelled as picking index `sample_u % pool.length` (and as failure, `none`,
on an empty pool, where the library call raises). -/
noncomputable def gen_path (drop_x drop_y : ℤ)
    (possible_safe_zones : List (ℝ × ℝ × ℝ)) (end_state : ℚ) (model : Model)
    (sample_u : ℕ) (u : ℕ → ℕ) (z : ℕ → ℝ × ℝ) : Option (List PathPoint) :=
  if possible_safe_zones.length = 0 then none
  else
    let zone := possible_safe_zones.getD
      (sample_u % possible_safe_zones.length) (0, 0, 0)
    gen_path_loop model u z end_state (1/2) drop_x drop_y zone.1 zone.2.1 zone.2.2
      [⟨drop_x, drop_y, 1/2, zone.1, zone.2.1, zone.2.2⟩] 0

/-- A model that predicts rank 0 for every state vector. -/
def model0 : Model := fun _ _ _ _ _ _ => 0

/-- The all-zero tie-break stream. -/
def u0 : ℕ → ℕ := fun _ => 0

/-- The constant-4 tie-break stream. -/
def u4 : ℕ → ℕ := fun _ => 4

/-- The all-zero zone-evolution stream. -/
def z0 : ℕ → ℝ × ℝ := fun _ => (0, 0)

/-- The rank classes `{0, 1, 2, 3, 4}`, the keys of the `ranks` dictionary in
`recommender.get_next_loc`. -/
def rank_keys : List ℤ := [0, 1, 2, 3, 4]

/-- Claim C8: `round_raw` computes `⌊raw / 10000⌋ * 10000 + 5000`; the result
is within 5000 units of the input, quantization is idempotent, and
`round_raw 126903 = 125000`, `round_raw 341005 = 345000`. -/
theorem c8_round_raw_quantizer :
    (∀ raw : ℝ, round_raw raw = ⌊raw / 10000⌋ * 10000 + 5000) ∧
    (∀ raw : ℝ, |((round_raw raw : ℤ) : ℝ) - raw| ≤ 5000) ∧
    (∀ raw : ℝ, round_raw ((round_raw raw : ℤ) : ℝ) = round_raw raw) ∧
    round_raw 126903 = 125000 ∧ round_raw 341005 = 345000 := by
  have hfloor : ∀ k : ℤ, ⌊((k * 10000 + 5000 : ℤ) : ℝ) / 10000⌋ = k := by
    intro k
    have hval : ((k * 10000 + 5000 : ℤ) : ℝ) / 10000 = (k : ℝ) + 1/2 := by
      push_cast; ring
    rw [hval, Int.floor_eq_iff]
    constructor
    · linarith
    · push_cast; linarith
  refine ⟨fun raw => rfl, ?_, ?_, ?_, ?_⟩
  · intro raw
    have h1 := Int.floor_le (raw / 10000)
    have h2 := Int.lt_floor_add_one (raw / 10000)
    rw [abs_le]
    unfold round_raw
    push_cast
    constructor <;> nlinarith
  · intro raw
    unfold round_raw
    rw [hfloor]
  · show (⌊(126903 : ℝ) / 10000⌋ * 10000 + 5000 : ℤ) = 125000
    have : ⌊(126903 : ℝ) / 10000⌋ = 12 := by
      rw [Int.floor_eq_iff] <;> norm_num
    rw [this]; norm_num
  · show (⌊(341005 : ℝ) / 10000⌋ * 10000 + 5000 : ℤ) = 345000
    have : ⌊(341005 : ℝ) / 10000⌋ = 34 := by
      rw [Int.floor_eq_iff] <;> norm_num
    rw [this]; norm_num

theorem in_zone_of_sq (x y zx zy zr : ℝ) (h0 : 0 ≤ zr)
    (h : (x - zx) ^ 2 + (y - zy) ^ 2 < zr ^ 2) : in_zone x y zx zy zr := by
  unfold in_zone
  have hs : (0:ℝ) ≤ (x - zx) ^ 2 + (y - zy) ^ 2 := by positivity
  calc Real.sqrt ((x - zx) ^ 2 + (y - zy) ^ 2)
      < Real.sqrt (zr ^ 2) := Real.sqrt_lt_sqrt hs h
    _ = zr := Real.sqrt_sq h0

theorem in_zone_iff {x y zx zy zr : ℝ} (h0 : 0 ≤ zr) :
    in_zone x y zx zy zr ↔ (x - zx) ^ 2 + (y - zy) ^ 2 < zr ^ 2 := by
  constructor
  · intro hc
    have hs := Real.sqrt_nonneg ((x - zx) ^ 2 + (y - zy) ^ 2)
    have h1 : Real.sqrt ((x - zx) ^ 2 + (y - zy) ^ 2) ^ 2 < zr ^ 2 := by
      apply pow_lt_pow_left₀ hc hs
      norm_num
    rwa [Real.sq_sqrt (by positivity)] at h1
  · exact in_zone_of_sq x y zx zy zr h0

theorem mem_ite_singleton {α : Type} {c : Prop} [Decidable c] {a p : α} :
    (p ∈ if c then [a] else []) ↔ c ∧ p = a := by
  by_cases hc : c <;> simp [hc]

theorem length_flatMap_le {α β : Type} (l : List α) (f : α → List β) (n : ℕ)
    (h : ∀ a ∈ l, (f a).length ≤ n) : (l.flatMap f).length ≤ l.length * n := by
  induction l with
  | nil => simp
  | cons a t ih =>
    simp only [List.flatMap_cons, List.length_append, List.length_cons]
    have h1 := h a (by simp)
    have h2 := ih (fun a ha => h a (by simp [ha]))
    calc (f a).length + (t.flatMap f).length ≤ n + t.length * n := by omega
      _ = (t.length + 1) * n := by ring

theorem mem_gen_candidate_locations (cx cy : ℤ) (sx sy sr : ℝ) (p : ℤ × ℤ) :
    p ∈ gen_candidate_locations cx cy sx sy sr ↔
      (p.1 ∈ [cx - 10000, cx, cx + 10000] ∧ p.2 ∈ [cy - 10000, cy, cy + 10000]) ∧
        in_zone (p.1 : ℝ) (p.2 : ℝ) sx sy sr := by
  unfold gen_candidate_locations
  simp only [List.mem_flatMap, mem_ite_singleton]
  constructor
  · rintro ⟨x, hx, y, hy, hz, rfl⟩
    exact ⟨⟨hx, hy⟩, hz⟩
  · rintro ⟨⟨h1, h2⟩, hz⟩
    exact ⟨p.1, h1, p.2, h2, hz, rfl⟩

theorem gen_candidate_locations_length_le (cx cy : ℤ) (sx sy sr : ℝ) :
    (gen_candidate_locations cx cy sx sy sr).length ≤ 9 := by
  unfold gen_candidate_locations
  calc ([cx - 10000, cx, cx + 10000].flatMap _).length ≤ 3 * 3 := by
        apply length_flatMap_le
        intro a _
        calc ([cy - 10000, cy, cy + 10000].flatMap _).length ≤ 3 * 1 := by
              apply length_flatMap_le
              intro b _
              split <;> simp
          _ ≤ 3 := by norm_num
    _ ≤ 9 := by norm_num

theorem cand_eval_scenario_c : gen_candidate_locations 0 0 0 0 25000 =
    [(-10000, -10000), (-10000, 0), (-10000, 10000),
     (0, -10000), (0, 0), (0, 10000),
     (10000, -10000), (10000, 0), (10000, 10000)] := by
  unfold gen_candidate_locations
  simp only [List.flatMap_cons, List.flatMap_nil,
    in_zone_iff (show (0:ℝ) ≤ 25000 by norm_num)]
  norm_num

/-- Claim C6: `gen_candidate_locations` returns exactly those of the nine grid
positions `(curr_x + dx, curr_y + dy)`, `dx, dy ∈ {-10000, 0, 10000}`, that
satisfy `in_zone`; hence at most nine elements, each in the zone; at position
`(0, 0)` with zone center `(0, 0)` and radius 25000 it returns all nine. -/
theorem c6_gen_candidate_locations_grid :
    (∀ (cx cy : ℤ) (sx sy sr : ℝ) (p : ℤ × ℤ),
      p ∈ gen_candidate_locations cx cy sx sy sr ↔
        (p.1 ∈ [cx - 10000, cx, cx + 10000] ∧
         p.2 ∈ [cy - 10000, cy, cy + 10000]) ∧
          in_zone (p.1 : ℝ) (p.2 : ℝ) sx sy sr) ∧
    (∀ (cx cy : ℤ) (sx sy sr : ℝ),
      (gen_candidate_locations cx cy sx sy sr).length ≤ 9) ∧
    gen_candidate_locations 0 0 0 0 25000 =
      [(-10000, -10000), (-10000, 0), (-10000, 10000),
       (0, -10000), (0, 0), (0, 10000),
       (10000, -10000), (10000, 0), (10000, 10000)] :=
  ⟨mem_gen_candidate_locations, gen_candidate_locations_length_le,
    cand_eval_scenario_c⟩

theorem round_raw_mod (raw : ℝ) : round_raw raw % 10000 = 5000 := by
  unfold round_raw
  omega

theorem get_closest_to_safezone_mod (x y : ℤ) (sx sy sr : ℝ) :
    (get_closest_to_safezone x y sx sy sr).1 % 10000 = 5000 ∧
    (get_closest_to_safezone x y sx sy sr).2 % 10000 = 5000 := by
  unfold get_closest_to_safezone
  exact ⟨round_raw_mod _, round_raw_mod _⟩

theorem get_closest_to_safezone_ne_sentinel (x y : ℤ) (sx sy sr : ℝ) :
    get_closest_to_safezone x y sx sy sr ≠ (-1, -1) := by
  intro h
  have h1 := (get_closest_to_safezone_mod x y sx sy sr).1
  rw [h] at h1
  norm_num at h1

theorem next_loc_buckets (gs : ℚ) (x y : ℤ) (sx sy sr : ℝ) (model : Model)
    (hne : (gen_candidate_locations x y sx sy sr).length ≠ 0)
    (hvalid : ∀ c ∈ gen_candidate_locations x y sx sy sr,
      predict_rank gs c.1 c.2 sx sy sr model ∈ rank_keys) :
    ∃ k ∈ rank_keys, rank_bucket gs x y sx sy sr model k ≠ [] ∧
      (∀ j ∈ rank_keys, j < k → rank_bucket gs x y sx sy sr model j = []) ∧
      ∀ u : ℕ, get_next_loc gs x y sx sy sr model u =
        some ((rank_bucket gs x y sx sy sr model k).getD
          (u % (rank_bucket gs x y sx sy sr model k).length) (0, 0)) := by
  have hkey : ¬ ∃ c ∈ gen_candidate_locations x y sx sy sr,
      predict_rank gs c.1 c.2 sx sy sr model ∉ ([0, 1, 2, 3, 4] : List ℤ) := by
    rintro ⟨c, hc, hbad⟩
    exact hbad (hvalid c hc)
  set B := rank_bucket gs x y sx sy sr model with hB
  have hnl : ∀ k, B k ≠ [] ↔ (B k).length > 0 := by
    intro k
    rw [← List.length_pos]
  have hunfold : ∀ u : ℕ, get_next_loc gs x y sx sy sr model u =
      (if (B 0).length > 0 then some ((B 0).getD (u % (B 0).length) (0, 0))
       else if (B 1).length > 0 then some ((B 1).getD (u % (B 1).length) (0, 0))
       else if (B 2).length > 0 then some ((B 2).getD (u % (B 2).length) (0, 0))
       else if (B 3).length > 0 then some ((B 3).getD (u % (B 3).length) (0, 0))
       else if (B 4).length > 0 then some ((B 4).getD (u % (B 4).length) (0, 0))
       else some (-1, -1)) := by
    intro u
    unfold get_next_loc
    rw [if_neg hne, if_neg hkey]
  by_cases h0 : (B 0).length > 0
  · refine ⟨0, by simp [rank_keys], (hnl 0).mpr h0, ?_, ?_⟩
    · intro j hj hjlt
      simp only [rank_keys] at hj
      fin_cases hj <;> omega
    · intro u
      rw [hunfold u, if_pos h0]
  by_cases h1 : (B 1).length > 0
  · refine ⟨1, by simp [rank_keys], (hnl 1).mpr h1, ?_, ?_⟩
    · intro j hj hjlt
      simp only [rank_keys] at hj
      have hj0 : j = 0 := by fin_cases hj <;> omega
      subst hj0
      simpa [hnl 0] using h0
    · intro u
      rw [hunfold u, if_neg h0, if_pos h1]
  by_cases h2 : (B 2).length > 0
  · refine ⟨2, by simp [rank_keys], (hnl 2).mpr h2, ?_, ?_⟩
    · intro j hj hjlt
      simp only [rank_keys] at hj
      have hj' : j = 0 ∨ j = 1 := by fin_cases hj <;> omega
      rcases hj' with rfl | rfl
      · simpa [hnl 0] using h0
      · simpa [hnl 1] using h1
    · intro u
      rw [hunfold u, if_neg h0, if_neg h1, if_pos h2]
  by_cases h3 : (B 3).length > 0
  · refine ⟨3, by simp [rank_keys], (hnl 3).mpr h3, ?_, ?_⟩
    · intro j hj hjlt
      simp only [rank_keys] at hj
      have hj' : j = 0 ∨ j = 1 ∨ j = 2 := by fin_cases hj <;> omega
      rcases hj' with rfl | rfl | rfl
      · simpa [hnl 0] using h0
      · simpa [hnl 1] using h1
      · simpa [hnl 2] using h2
    · intro u
      rw [hunfold u, if_neg h0, if_neg h1, if_neg h2, if_pos h3]
  by_cases h4 : (B 4).length > 0
  · refine ⟨4, by simp [rank_keys], (hnl 4).mpr h4, ?_, ?_⟩
    · intro j hj hjlt
      simp only [rank_keys] at hj
      have hj' : j = 0 ∨ j = 1 ∨ j = 2 ∨ j = 3 := by fin_cases hj <;> omega
      rcases hj' with rfl | rfl | rfl | rfl
      · simpa [hnl 0] using h0
      · simpa [hnl 1] using h1
      · simpa [hnl 2] using h2
      · simpa [hnl 3] using h3
    · intro u
      rw [hunfold u, if_neg h0, if_neg h1, if_neg h2, if_neg h3, if_pos h4]
  · exfalso
    obtain ⟨c, hc⟩ := List.exists_mem_of_ne_nil
      (gen_candidate_locations x y sx sy sr)
      (by intro hnil; rw [hnil] at hne; simp at hne)
    have hr := hvalid c hc
    have hmem : c ∈ B (predict_rank gs c.1 c.2 sx sy sr model) := by
      rw [hB]
      unfold rank_bucket
      rw [List.mem_filter]
      exact ⟨hc, by simp⟩
    simp only [rank_keys, List.mem_cons, List.not_mem_nil, or_false] at hr
    rcases hr with hr | hr | hr | hr | hr <;> rw [hr] at hmem
    · exact h0 (List.length_pos.mpr (List.ne_nil_of_mem hmem))
    · exact h1 (List.length_pos.mpr (List.ne_nil_of_mem hmem))
    · exact h2 (List.length_pos.mpr (List.ne_nil_of_mem hmem))
    · exact h3 (List.length_pos.mpr (List.ne_nil_of_mem hmem))
    · exact h4 (List.length_pos.mpr (List.ne_nil_of_mem hmem))

theorem bucket_getD_mem (l : List (ℤ × ℤ)) (u : ℕ) (h : l ≠ []) :
    l.getD (u % l.length) (0, 0) ∈ l := by
  have hlen : 0 < l.length := List.length_pos.mpr h
  have hlt : u % l.length < l.length := Nat.mod_lt _ hlen
  rw [List.getD_eq_getElem l (0, 0) hlt]
  exact List.getElem_mem hlt

theorem rank_bucket_subset (gs : ℚ) (x y : ℤ) (sx sy sr : ℝ) (model : Model)
    (k : ℤ) (c : ℤ × ℤ) (h : c ∈ rank_bucket gs x y sx sy sr model k) :
    c ∈ gen_candidate_locations x y sx sy sr := by
  unfold rank_bucket at h
  exact List.mem_of_mem_filter h

/-- Claim C5: with a non-empty candidate list whose predicted ranks all lie in
`{0, 1, 2, 3, 4}`, `get_next_loc` returns an element of the lowest-numbered
non-empty rank bucket, chosen by the tie-break index draw within that bucket;
every lower-numbered bucket is empty, so a worse-ranked candidate is never
returned while a better-ranked one exists. -/
theorem c5_next_loc_lowest_rank_bucket (gs : ℚ) (x y : ℤ) (sx sy sr : ℝ)
    (model : Model)
    (hne : (gen_candidate_locations x y sx sy sr).length ≠ 0)
    (hvalid : ∀ c ∈ gen_candidate_locations x y sx sy sr,
      predict_rank gs c.1 c.2 sx sy sr model ∈ rank_keys) :
    ∃ k ∈ rank_keys, rank_bucket gs x y sx sy sr model k ≠ [] ∧
      (∀ j ∈ rank_keys, j < k → rank_bucket gs x y sx sy sr model j = []) ∧
      ∀ u : ℕ, ∃ p, get_next_loc gs x y sx sy sr model u = some p ∧
        p ∈ rank_bucket gs x y sx sy sr model k ∧
        p = (rank_bucket gs x y sx sy sr model k).getD
          (u % (rank_bucket gs x y sx sy sr model k).length) (0, 0) := by
  obtain ⟨k, hk, hbne, hlow, hres⟩ := next_loc_buckets gs x y sx sy sr model hne hvalid
  refine ⟨k, hk, hbne, hlow, fun u => ⟨_, hres u, bucket_getD_mem _ u hbne, rfl⟩⟩

theorem c5_witness :
    ∃ k ∈ rank_keys, rank_bucket (1/2) 0 0 0 0 25000 model0 k ≠ [] ∧
      (∀ j ∈ rank_keys, j < k → rank_bucket (1/2) 0 0 0 0 25000 model0 j = []) ∧
      ∀ u : ℕ, ∃ p, get_next_loc (1/2) 0 0 0 0 25000 model0 u = some p ∧
        p ∈ rank_bucket (1/2) 0 0 0 0 25000 model0 k ∧
        p = (rank_bucket (1/2) 0 0 0 0 25000 model0 k).getD
          (u % (rank_bucket (1/2) 0 0 0 0 25000 model0 k).length) (0, 0) :=
  c5_next_loc_lowest_rank_bucket (1/2) 0 0 0 0 25000 model0
    (by rw [cand_eval_scenario_c]; simp)
    (by intro c _; simp [predict_rank, model0, rank_keys])

/-- Claim C10 (amended): when the model's predictions always lie in
`{0, 1, 2, 3, 4}`, `get_next_loc` always succeeds; with empty candidates the
returned quantized boundary point has both coordinates congruent to 5000
modulo 10000 (so it is never `(-1, -1)`), and the value `(-1, -1)` can be
returned only as a genuinely chosen in-zone candidate — the final
`else`-branch sentinel of `get_next_loc` is unreachable. -/
theorem c10_sentinel_only_as_candidate (model : Model)
    (hvalid : ∀ (gs : ℚ) (x y : ℤ) (sx sy sr : ℝ),
      model gs x y sx sy sr ∈ rank_keys) :
    ∀ (gs : ℚ) (x y : ℤ) (sx sy sr : ℝ) (u : ℕ),
      ∃ p, get_next_loc gs x y sx sy sr model u = some p ∧
        (gen_candidate_locations x y sx sy sr = [] →
          p.1 % 10000 = 5000 ∧ p.2 % 10000 = 5000) ∧
        (p = (-1, -1) → (-1, -1) ∈ gen_candidate_locations x y sx sy sr) := by
  intro gs x y sx sy sr u
  by_cases hc : (gen_candidate_locations x y sx sy sr).length = 0
  · refine ⟨get_closest_to_safezone x y sx sy sr, ?_, ?_, ?_⟩
    · unfold get_next_loc
      rw [if_pos hc]
    · intro _
      exact get_closest_to_safezone_mod x y sx sy sr
    · intro hp
      exact absurd hp (get_closest_to_safezone_ne_sentinel x y sx sy sr)
  · obtain ⟨k, hk, hbne, hlow, hres⟩ := next_loc_buckets gs x y sx sy sr model hc
      (fun c _ => hvalid gs c.1 c.2 sx sy sr)
    refine ⟨_, hres u, ?_, ?_⟩
    · intro hnil
      rw [hnil] at hc
      simp at hc
    · intro hp
      have hmem := bucket_getD_mem _ u hbne
      rw [hp] at hmem
      exact rank_bucket_subset gs x y sx sy sr model k _ hmem

theorem c10_witness :
    ∃ p, get_next_loc (1/2) 0 0 0 0 25000 model0 0 = some p ∧
      (gen_candidate_locations 0 0 0 0 25000 = [] →
        p.1 % 10000 = 5000 ∧ p.2 % 10000 = 5000) ∧
      (p = (-1, -1) → (-1, -1) ∈ gen_candidate_locations 0 0 0 0 25000) :=
  c10_sentinel_only_as_candidate model0
    (by intro gs x y sx sy sr; simp [model0, rank_keys]) (1/2) 0 0 0 0 25000 0

/-- Claim C3: the simulation consumes randomness only through the explicit
sample index and the two streams; runs of `gen_path` with the same inputs and
the same random draws produce identical paths. -/
theorem c3_gen_path_deterministic (drop_x drop_y : ℤ)
    (pool : List (ℝ × ℝ × ℝ)) (end_state : ℚ) (model : Model)
    (su su' : ℕ) (u u' : ℕ → ℕ) (z z' : ℕ → ℝ × ℝ)
    (hsu : su = su') (hu : u = u') (hz : z = z') :
    gen_path drop_x drop_y pool end_state model su u z =
      gen_path drop_x drop_y pool end_state model su' u' z' := by
  subst hsu hu hz
  rfl

theorem c3_witness :
    gen_path 0 0 [(0, 0, 25000)] 1 model0 0 u0 z0 =
      gen_path 0 0 [(0, 0, 25000)] 1 model0 0 u0 z0 :=
  c3_gen_path_deterministic 0 0 [(0, 0, 25000)] 1 model0 0 0 u0 u0 z0 z0
    rfl rfl rfl

/-- Claim C4 (amended): `gen_path` performs no input validation.  It fails
only when the zone pool is empty (the sampling call raises); an `end_state`
that is not greater than 0.5 is accepted and yields the one-point path, zones
with negative radius are accepted, and with a non-empty pool exactly one
first zone — the sampled index modulo the pool size — is taken from the
pool. -/
theorem c4_no_validation :
    (∀ (dx dy : ℤ) (e : ℚ) (model : Model) (su : ℕ) (u : ℕ → ℕ)
        (z : ℕ → ℝ × ℝ), gen_path dx dy [] e model su u z = none) ∧
    (∀ (dx dy : ℤ) (pool : List (ℝ × ℝ × ℝ)) (e : ℚ) (model : Model) (su : ℕ)
        (u : ℕ → ℕ) (z : ℕ → ℝ × ℝ), pool ≠ [] → e ≤ 1/2 →
      gen_path dx dy pool e model su u z =
        some [⟨dx, dy, 1/2,
          (pool.getD (su % pool.length) (0, 0, 0)).1,
          (pool.getD (su % pool.length) (0, 0, 0)).2.1,
          (pool.getD (su % pool.length) (0, 0, 0)).2.2⟩] ∧
        pool.getD (su % pool.length) (0, 0, 0) ∈ pool) := by
  constructor
  · intro dx dy e model su u z
    unfold gen_path
    rw [if_pos (by simp)]
  · intro dx dy pool e model su u z hne he
    have hlen : pool.length ≠ 0 := by
      intro h0
      exact hne (List.length_eq_zero.mp h0)
    constructor
    · unfold gen_path
      rw [if_neg hlen]
      rw [gen_path_loop]
      rw [dif_neg (by linarith)]
    · have hlt : su % pool.length < pool.length :=
        Nat.mod_lt _ (by omega)
      rw [List.getD_eq_getElem pool (0, 0, 0) hlt]
      exact List.getElem_mem hlt

theorem c4_witness :
    gen_path 0 0 [((1:ℝ), (2:ℝ), (-3:ℝ))] (1/4) model0 0 u0 z0 =
      some [⟨0, 0, 1/2,
        (([((1:ℝ), (2:ℝ), (-3:ℝ))].getD
          (0 % [((1:ℝ), (2:ℝ), (-3:ℝ))].length) (0, 0, 0)).1),
        (([((1:ℝ), (2:ℝ), (-3:ℝ))].getD
          (0 % [((1:ℝ), (2:ℝ), (-3:ℝ))].length) (0, 0, 0)).2.1),
        (([((1:ℝ), (2:ℝ), (-3:ℝ))].getD
          (0 % [((1:ℝ), (2:ℝ), (-3:ℝ))].length) (0, 0, 0)).2.2)⟩] ∧
      [((1:ℝ), (2:ℝ), (-3:ℝ))].getD
        (0 % [((1:ℝ), (2:ℝ), (-3:ℝ))].length) (0, 0, 0) ∈
        [((1:ℝ), (2:ℝ), (-3:ℝ))] :=
  c4_no_validation.2 0 0 [((1:ℝ), (2:ℝ), (-3:ℝ))] (1/4) model0 0 u0 z0
    (by simp) (by norm_num)

theorem c4_counterexample :
    gen_path 0 0 [((0:ℝ), (0:ℝ), (-5:ℝ))] (3/10) model0 0 u0 z0 =
      some [⟨0, 0, 1/2, 0, 0, -5⟩] ∧
    gen_path 0 0 [((0:ℝ), (0:ℝ), (-5:ℝ))] (3/10) model0 0 u0 z0 ≠ none := by
  constructor
  · unfold gen_path
    rw [if_neg (by norm_num)]
    simp only [List.length_cons, List.length_nil, Nat.zero_mod,
      List.getD_cons_zero]
    rw [gen_path_loop]
    rw [dif_neg (by norm_num)]
  · unfold gen_path
    rw [if_neg (by norm_num)]
    simp only [List.length_cons, List.length_nil, Nat.zero_mod,
      List.getD_cons_zero]
    rw [gen_path_loop]
    rw [dif_neg (by norm_num)]
    simp

/-- Claim C9: `gen_new_safezone` never returns a zone at all — every call
raises `TypeError` because `import random` (recommender.py:21) shadows the
`random` function imported at line 17, so `random()` at recommender.py:45 is
a call on the module object.  The embedded function is therefore the constant
error; in particular it errors at the canonical call of the simulation,
shrink ratio 0.5. -/
theorem c9_gen_new_safezone_raises :
    (∀ curr_x curr_y curr_r rad_decrease : ℝ,
      gen_new_safezone curr_x curr_y curr_r rad_decrease = none) ∧
    gen_new_safezone 0 0 1 (1/2) = none :=
  ⟨fun _ _ _ _ => rfl, rfl⟩

theorem cand_eval_c10 : gen_candidate_locations (-1) (-1) (-1) (-1) 20000 =
    [(-10001, -10001), (-10001, -1), (-10001, 9999),
     (-1, -10001), (-1, -1), (-1, 9999),
     (9999, -10001), (9999, -1), (9999, 9999)] := by
  unfold gen_candidate_locations
  simp only [List.flatMap_cons, List.flatMap_nil,
    in_zone_iff (show (0:ℝ) ≤ 20000 by norm_num)]
  norm_num

theorem bucket_eval_c10 :
    rank_bucket (1/2) (-1) (-1) (-1) (-1) 20000 model0 0 =
    [(-10001, -10001), (-10001, -1), (-10001, 9999),
     (-1, -10001), (-1, -1), (-1, 9999),
     (9999, -10001), (9999, -1), (9999, 9999)] := by
  unfold rank_bucket
  rw [cand_eval_c10]
  simp [predict_rank, model0]

theorem next_loc_eval_c10 :
    get_next_loc (1/2) (-1) (-1) (-1) (-1) 20000 model0 4 = some (-1, -1) := by
  unfold get_next_loc
  rw [cand_eval_c10]
  rw [if_neg (by norm_num)]
  rw [if_neg (by simp [predict_rank, model0])]
  rw [if_pos (by rw [bucket_eval_c10]; norm_num)]
  rw [bucket_eval_c10]
  norm_num

theorem c10_counterexample :
    (∀ (gs : ℚ) (x y : ℤ) (sx sy sr : ℝ),
      model0 gs x y sx sy sr ∈ rank_keys) ∧
    get_next_loc (1/2) (-1) (-1) (-1) (-1) 20000 model0 4 = some (-1, -1) ∧
    gen_path (-1) (-1) [(-1, -1, 20000)] (4/5) model0 0 u4 z0 =
      some [⟨-1, -1, 1/2, -1, -1, 20000⟩] := by
  refine ⟨by intro gs x y sx sy sr; simp [model0, rank_keys],
    next_loc_eval_c10, ?_⟩
  unfold gen_path
  rw [if_neg (by norm_num)]
  simp only [List.length_cons, List.length_nil, Nat.zero_mod, List.getD_cons_zero]
  rw [gen_path_loop]
  rw [dif_pos (show (1:ℚ)/2 < 4/5 by norm_num)]
  have hu : u4 0 = 4 := rfl
  rw [hu, next_loc_eval_c10]
  norm_num

theorem get_next_loc_isSome (model : Model)
    (hvalid : ∀ (gs : ℚ) (x y : ℤ) (sx sy sr : ℝ),
      model gs x y sx sy sr ∈ rank_keys)
    (gs : ℚ) (x y : ℤ) (sx sy sr : ℝ) (u : ℕ) :
    ∃ p, get_next_loc gs x y sx sy sr model u = some p := by
  by_cases hc : (gen_candidate_locations x y sx sy sr).length = 0
  · refine ⟨get_closest_to_safezone x y sx sy sr, ?_⟩
    unfold get_next_loc
    rw [if_pos hc]
  · obtain ⟨k, _, hbne, _, hres⟩ := next_loc_buckets gs x y sx sy sr model hc
      (fun c _ => hvalid gs c.1 c.2 sx sy sr)
    exact ⟨_, hres u⟩

theorem gen_path_loop_eq_of_some (model : Model) (u : ℕ → ℕ) (z : ℕ → ℝ × ℝ)
    (e gs : ℚ) (cx cy : ℤ) (sx sy sr : ℝ) (path : List PathPoint) (step : ℕ)
    (nx ny : ℤ) (hlt : gs < e)
    (hp : get_next_loc gs cx cy sx sy sr model (u step) = some (nx, ny)) :
    gen_path_loop model u z e gs cx cy sx sy sr path step =
      if nx = -1 ∧ ny = -1 then
        (if (⌊e⌋ : ℚ) = e then none else some path)
      else
        (if (⌊gs + 1/4⌋ : ℚ) = gs + 1/4 then none
         else
           gen_path_loop model u z e (gs + 1/4) nx ny sx sy sr
             (path ++ [⟨nx, ny, gs, sx, sy, sr⟩]) (step + 1)) := by
  rw [gen_path_loop, dif_pos hlt, hp]
  rfl

theorem gen_path_loop_length (model : Model) (u : ℕ → ℕ) (z : ℕ → ℝ × ℝ)
    (e : ℚ) :
    ∀ (n : ℕ) (gs : ℚ) (cx cy : ℤ) (sx sy sr : ℝ) (path : List PathPoint)
      (step : ℕ) (p : List PathPoint), (⌈(e - gs) * 4⌉).toNat ≤ n →
      gen_path_loop model u z e gs cx cy sx sy sr path step = some p →
      p.length ≤ path.length + (⌈(e - gs) * 4⌉).toNat := by
  intro n
  induction n with
  | zero =>
    intro gs cx cy sx sy sr path step p hn hsome
    have hge : ¬ gs < e := by
      intro hlt
      have : 0 < ⌈(e - gs) * 4⌉ := Int.ceil_pos.mpr (by linarith)
      omega
    rw [gen_path_loop, dif_neg hge] at hsome
    cases hsome
    omega
  | succ m ih =>
    intro gs cx cy sx sy sr path step p hn hsome
    by_cases hlt : gs < e
    · cases hq : get_next_loc gs cx cy sx sy sr model (u step) with
      | none =>
        rw [gen_path_loop, dif_pos hlt, hq] at hsome
        cases hsome
      | some q =>
        obtain ⟨nx, ny⟩ := q
        rw [gen_path_loop_eq_of_some model u z e gs cx cy sx sy sr path step
          nx ny hlt hq] at hsome
        by_cases hsent : nx = -1 ∧ ny = -1
        · rw [if_pos hsent] at hsome
          by_cases hre : (⌊e⌋ : ℚ) = e
          · rw [if_pos hre] at hsome
            cases hsome
          · rw [if_neg hre] at hsome
            cases hsome
            omega
        · rw [if_neg hsent] at hsome
          by_cases hrd : (⌊gs + 1/4⌋ : ℚ) = gs + 1/4
          · rw [if_pos hrd] at hsome
            cases hsome
          · rw [if_neg hrd] at hsome
            have hc1 : (e - (gs + 1/4)) * 4 = (e - gs) * 4 - 1 := by ring
            have hc2 : 0 < ⌈(e - gs) * 4⌉ := Int.ceil_pos.mpr (by linarith)
            have hm : (⌈(e - (gs + 1/4)) * 4⌉).toNat ≤ m := by
              rw [hc1, Int.ceil_sub_one]
              omega
            have hlen := ih (gs + 1/4) nx ny sx sy sr
              (path ++ [⟨nx, ny, gs, sx, sy, sr⟩]) (step + 1) p hm hsome
            rw [List.length_append] at hlen
            rw [hc1, Int.ceil_sub_one] at hlen
            simp only [List.length_cons, List.length_nil] at hlen
            omega
    · rw [gen_path_loop, dif_neg hlt] at hsome
      cases hsome
      omega

/-- Claim C7 (amended): with a non-empty zone pool and a model that always
predicts a rank in `{0, 1, 2, 3, 4}`, every Path that `gen_path` returns has
at most `⌈(end_state - 0.5) / 0.25⌉ + 1` points, and for `end_state ≤ 0.75` a
Path is in fact returned.  For larger `end_state`, a run that reaches an
integer game_state raises `TypeError` in the safe-zone update
(`gen_new_safezone`, shadowed `random` import) instead of returning a Path,
so unconditional termination with a returned Path does not hold; and the
bound as the claim states it, `(end_state - 0.5)/0.25 + 1` without the
ceiling, also fails for `end_state` values that are not `0.5` plus a
nonnegative multiple of `0.25`. -/
theorem c7_gen_path_length_bound (drop_x drop_y : ℤ)
    (pool : List (ℝ × ℝ × ℝ)) (e : ℚ) (model : Model) (su : ℕ) (u : ℕ → ℕ)
    (z : ℕ → ℝ × ℝ) (hpool : pool ≠ [])
    (hvalid : ∀ (gs : ℚ) (x y : ℤ) (sx sy sr : ℝ),
      model gs x y sx sy sr ∈ rank_keys) :
    (∀ p, gen_path drop_x drop_y pool e model su u z = some p →
      p.length ≤ (⌈(e - 1/2) * 4⌉).toNat + 1) ∧
    (e ≤ 3/4 → ∃ p, gen_path drop_x drop_y pool e model su u z = some p ∧
      p.length ≤ (⌈(e - 1/2) * 4⌉).toNat + 1) := by
  have hlen : pool.length ≠ 0 := fun h => hpool (List.length_eq_zero.mp h)
  constructor
  · intro p hp
    unfold gen_path at hp
    rw [if_neg hlen] at hp
    have hb := gen_path_loop_length model u z e ((⌈(e - 1/2) * 4⌉).toNat)
      (1/2) drop_x drop_y
      (pool.getD (su % pool.length) (0, 0, 0)).1
      (pool.getD (su % pool.length) (0, 0, 0)).2.1
      (pool.getD (su % pool.length) (0, 0, 0)).2.2
      [⟨drop_x, drop_y, 1/2,
        (pool.getD (su % pool.length) (0, 0, 0)).1,
        (pool.getD (su % pool.length) (0, 0, 0)).2.1,
        (pool.getD (su % pool.length) (0, 0, 0)).2.2⟩] 0 p le_rfl hp
    simp only [List.length_cons, List.length_nil] at hb
    omega
  · intro he
    by_cases h1 : (1:ℚ)/2 < e
    · obtain ⟨q, hq⟩ := get_next_loc_isSome model hvalid (1/2) drop_x drop_y
        (pool.getD (su % pool.length) (0, 0, 0)).1
        (pool.getD (su % pool.length) (0, 0, 0)).2.1
        (pool.getD (su % pool.length) (0, 0, 0)).2.2 (u 0)
      obtain ⟨nx, ny⟩ := q
      have hfe : ¬ ((⌊e⌋ : ℚ) = e) := by
        have h0 : ⌊e⌋ = 0 := by
          rw [Int.floor_eq_iff]
          constructor
          · push_cast
            linarith
          · push_cast
            linarith
        rw [h0]
        push_cast
        intro hc
        linarith
      have hnotround : ¬ ((⌊(1:ℚ)/2 + 1/4⌋ : ℚ) = 1/2 + 1/4) := by norm_num
      by_cases hsent : nx = -1 ∧ ny = -1
      · refine ⟨[⟨drop_x, drop_y, 1/2,
          (pool.getD (su % pool.length) (0, 0, 0)).1,
          (pool.getD (su % pool.length) (0, 0, 0)).2.1,
          (pool.getD (su % pool.length) (0, 0, 0)).2.2⟩], ?_, by simp⟩
        unfold gen_path
        rw [if_neg hlen]
        rw [gen_path_loop_eq_of_some model u z e (1/2) drop_x drop_y
          (pool.getD (su % pool.length) (0, 0, 0)).1
          (pool.getD (su % pool.length) (0, 0, 0)).2.1
          (pool.getD (su % pool.length) (0, 0, 0)).2.2
          [⟨drop_x, drop_y, 1/2,
            (pool.getD (su % pool.length) (0, 0, 0)).1,
            (pool.getD (su % pool.length) (0, 0, 0)).2.1,
            (pool.getD (su % pool.length) (0, 0, 0)).2.2⟩] 0 nx ny h1 hq]
        rw [if_pos hsent, if_neg hfe]
      · refine ⟨[⟨drop_x, drop_y, 1/2,
          (pool.getD (su % pool.length) (0, 0, 0)).1,
          (pool.getD (su % pool.length) (0, 0, 0)).2.1,
          (pool.getD (su % pool.length) (0, 0, 0)).2.2⟩,
          ⟨nx, ny, 1/2,
          (pool.getD (su % pool.length) (0, 0, 0)).1,
          (pool.getD (su % pool.length) (0, 0, 0)).2.1,
          (pool.getD (su % pool.length) (0, 0, 0)).2.2⟩], ?_, ?_⟩
        · unfold gen_path
          rw [if_neg hlen]
          rw [gen_path_loop_eq_of_some model u z e (1/2) drop_x drop_y
            (pool.getD (su % pool.length) (0, 0, 0)).1
            (pool.getD (su % pool.length) (0, 0, 0)).2.1
            (pool.getD (su % pool.length) (0, 0, 0)).2.2
            [⟨drop_x, drop_y, 1/2,
              (pool.getD (su % pool.length) (0, 0, 0)).1,
              (pool.getD (su % pool.length) (0, 0, 0)).2.1,
              (pool.getD (su % pool.length) (0, 0, 0)).2.2⟩] 0 nx ny h1 hq]
          rw [if_neg hsent, if_neg hnotround]
          rw [gen_path_loop, dif_neg (by linarith : ¬ ((1:ℚ)/2 + 1/4 < e))]
          rfl
        · have hcp : 0 < ⌈(e - 1/2) * 4⌉ := Int.ceil_pos.mpr (by linarith)
          simp only [List.length_cons, List.length_nil]
          omega
    · refine ⟨[⟨drop_x, drop_y, 1/2,
        (pool.getD (su % pool.length) (0, 0, 0)).1,
        (pool.getD (su % pool.length) (0, 0, 0)).2.1,
        (pool.getD (su % pool.length) (0, 0, 0)).2.2⟩], ?_, by simp⟩
      unfold gen_path
      rw [if_neg hlen]
      rw [gen_path_loop, dif_neg h1]

theorem c7_witness :
    (∀ p, gen_path 0 0 [((0:ℝ), (0:ℝ), (25000:ℝ))] (3/4) model0 0 u0 z0 =
        some p → p.length ≤ (⌈((3:ℚ)/4 - 1/2) * 4⌉).toNat + 1) ∧
    ((3:ℚ)/4 ≤ 3/4 → ∃ p,
      gen_path 0 0 [((0:ℝ), (0:ℝ), (25000:ℝ))] (3/4) model0 0 u0 z0 =
        some p ∧
      p.length ≤ (⌈((3:ℚ)/4 - 1/2) * 4⌉).toNat + 1) :=
  c7_gen_path_length_bound 0 0 [((0:ℝ), (0:ℝ), (25000:ℝ))] (3/4) model0 0 u0
    z0 (by simp) (by intro gs x y sx sy sr; simp [model0, rank_keys])

theorem c7_counterexample :
    gen_path 0 0 [((0:ℝ), (0:ℝ), (50000:ℝ))] (3/10) model0 0 u0 z0 =
      some [⟨0, 0, 1/2, 0, 0, 50000⟩] ∧
    ¬ ((([(⟨0, 0, 1/2, 0, 0, 50000⟩ : PathPoint)].length : ℚ)) ≤
        ((3/10 : ℚ) - 1/2) / (1/4) + 1) := by
  constructor
  · unfold gen_path
    rw [if_neg (by norm_num)]
    simp only [List.length_cons, List.length_nil, Nat.zero_mod,
      List.getD_cons_zero]
    rw [gen_path_loop]
    rw [dif_neg (by norm_num)]
  · norm_num

theorem gen_path_loop_chain (model : Model) (u : ℕ → ℕ) (z : ℕ → ℝ × ℝ)
    (e : ℚ) :
    ∀ (n : ℕ) (gs : ℚ) (cx cy : ℤ) (sx sy sr : ℝ) (path : List PathPoint)
      (step : ℕ) (p : List PathPoint), (⌈(e - gs) * 4⌉).toNat ≤ n →
      gen_path_loop model u z e gs cx cy sx sy sr path step = some p →
      (∀ q ∈ path, q.game_state ≤ gs) → path ≠ [] →
      List.Chain' (fun a b => a.game_state ≤ b.game_state) path →
      List.Chain' (fun a b => a.game_state ≤ b.game_state) p ∧
        p.head? = path.head? := by
  intro n
  induction n with
  | zero =>
    intro gs cx cy sx sy sr path step p hn hsome hinv hne hchain
    have hge : ¬ gs < e := by
      intro hlt
      have : 0 < ⌈(e - gs) * 4⌉ := Int.ceil_pos.mpr (by linarith)
      omega
    rw [gen_path_loop, dif_neg hge] at hsome
    cases hsome
    exact ⟨hchain, rfl⟩
  | succ m ih =>
    intro gs cx cy sx sy sr path step p hn hsome hinv hne hchain
    by_cases hlt : gs < e
    · cases hq : get_next_loc gs cx cy sx sy sr model (u step) with
      | none =>
        rw [gen_path_loop, dif_pos hlt, hq] at hsome
        cases hsome
      | some q =>
        obtain ⟨nx, ny⟩ := q
        rw [gen_path_loop_eq_of_some model u z e gs cx cy sx sy sr path step
          nx ny hlt hq] at hsome
        by_cases hsent : nx = -1 ∧ ny = -1
        · rw [if_pos hsent] at hsome
          by_cases hre : (⌊e⌋ : ℚ) = e
          · rw [if_pos hre] at hsome
            cases hsome
          · rw [if_neg hre] at hsome
            cases hsome
            exact ⟨hchain, rfl⟩
        · rw [if_neg hsent] at hsome
          by_cases hrd : (⌊gs + 1/4⌋ : ℚ) = gs + 1/4
          · rw [if_pos hrd] at hsome
            cases hsome
          rw [if_neg hrd] at hsome
          have hc1 : (e - (gs + 1/4)) * 4 = (e - gs) * 4 - 1 := by ring
          have hc2 : 0 < ⌈(e - gs) * 4⌉ := Int.ceil_pos.mpr (by linarith)
          have hm : (⌈(e - (gs + 1/4)) * 4⌉).toNat ≤ m := by
            rw [hc1, Int.ceil_sub_one]
            omega
          have hinv' : ∀ q ∈ path ++ [⟨nx, ny, gs, sx, sy, sr⟩],
              q.game_state ≤ gs + 1/4 := by
            intro q hqmem
            rcases List.mem_append.mp hqmem with hql | hqr
            · have := hinv q hql
              linarith
            · simp only [List.mem_cons, List.not_mem_nil, or_false] at hqr
              rw [hqr]
              norm_num
          have hchain' : List.Chain'
              (fun a b => a.game_state ≤ b.game_state)
              (path ++ [⟨nx, ny, gs, sx, sy, sr⟩]) := by
            apply hchain.append (by simp)
            intro x hx y hy
            simp only [List.head?_cons, Option.mem_def, Option.some.injEq] at hy
            obtain ⟨hxl, rfl⟩ := List.mem_getLast?_eq_getLast hx
            subst hy
            exact hinv _ (List.getLast_mem hxl)
          obtain ⟨hcp, hhp⟩ := ih (gs + 1/4) nx ny sx sy sr
            (path ++ [⟨nx, ny, gs, sx, sy, sr⟩]) (step + 1) p hm hsome hinv'
            (by simp) hchain'
          refine ⟨hcp, ?_⟩
          rw [hhp, List.head?_append_of_ne_nil path hne]
    · rw [gen_path_loop, dif_neg hlt] at hsome
      cases hsome
      exact ⟨hchain, rfl⟩

theorem cand_eval_d1 : gen_candidate_locations 100000 100000 100000 100000 50000 =
    [(90000, 90000), (90000, 100000), (90000, 110000),
     (100000, 90000), (100000, 100000), (100000, 110000),
     (110000, 90000), (110000, 100000), (110000, 110000)] := by
  unfold gen_candidate_locations
  simp only [List.flatMap_cons, List.flatMap_nil,
    in_zone_iff (show (0:ℝ) ≤ 50000 by norm_num)]
  norm_num

theorem bucket_eval_d1 :
    rank_bucket (1/2) 100000 100000 100000 100000 50000 model0 0 =
    [(90000, 90000), (90000, 100000), (90000, 110000),
     (100000, 90000), (100000, 100000), (100000, 110000),
     (110000, 90000), (110000, 100000), (110000, 110000)] := by
  unfold rank_bucket
  rw [cand_eval_d1]
  simp [predict_rank, model0]

theorem next_loc_d1 :
    get_next_loc (1/2) 100000 100000 100000 100000 50000 model0 0 =
      some (90000, 90000) := by
  unfold get_next_loc
  rw [cand_eval_d1]
  rw [if_neg (by norm_num)]
  rw [if_neg (by simp [predict_rank, model0])]
  rw [if_pos (by rw [bucket_eval_d1]; norm_num)]
  rw [bucket_eval_d1]
  norm_num

theorem cand_eval_d2 : gen_candidate_locations 90000 90000 100000 100000 50000 =
    [(80000, 80000), (80000, 90000), (80000, 100000),
     (90000, 80000), (90000, 90000), (90000, 100000),
     (100000, 80000), (100000, 90000), (100000, 100000)] := by
  unfold gen_candidate_locations
  simp only [List.flatMap_cons, List.flatMap_nil,
    in_zone_iff (show (0:ℝ) ≤ 50000 by norm_num)]
  norm_num

theorem bucket_eval_d2 :
    rank_bucket (3/4) 90000 90000 100000 100000 50000 model0 0 =
    [(80000, 80000), (80000, 90000), (80000, 100000),
     (90000, 80000), (90000, 90000), (90000, 100000),
     (100000, 80000), (100000, 90000), (100000, 100000)] := by
  unfold rank_bucket
  rw [cand_eval_d2]
  simp [predict_rank, model0]

theorem next_loc_d2 :
    get_next_loc (3/4) 90000 90000 100000 100000 50000 model0 0 =
      some (80000, 80000) := by
  unfold get_next_loc
  rw [cand_eval_d2]
  rw [if_neg (by norm_num)]
  rw [if_neg (by simp [predict_rank, model0])]
  rw [if_pos (by rw [bucket_eval_d2]; norm_num)]
  rw [bucket_eval_d2]
  norm_num

theorem scenario_d_eval_none :
    gen_path 100000 100000 [((100000:ℝ), (100000:ℝ), (50000:ℝ))] 1 model0 0
      u0 z0 = none := by
  unfold gen_path
  rw [if_neg (by norm_num)]
  simp only [List.length_cons, List.length_nil, Nat.zero_mod,
    List.getD_cons_zero]
  rw [gen_path_loop_eq_of_some model0 u0 z0 1 (1/2) 100000 100000 100000
    100000 50000 _ 0 90000 90000 (by norm_num)
    (by simpa [u0] using next_loc_d1)]
  rw [if_neg (by norm_num)]
  rw [if_neg (show ¬ ((⌊(1:ℚ)/2 + 1/4⌋ : ℚ) = 1/2 + 1/4) by norm_num)]
  norm_num
  rw [gen_path_loop_eq_of_some model0 u0 z0 1 (3/4) 90000 90000 100000
    100000 50000 _ 1 80000 80000 (by norm_num)
    (by simpa [u0] using next_loc_d2)]
  rw [if_neg (by norm_num)]
  rw [if_pos (show (⌊(3:ℚ)/4 + 1/4⌋ : ℚ) = 3/4 + 1/4 by norm_num)]

theorem scenario_d2_eval :
    gen_path 100000 100000 [((100000:ℝ), (100000:ℝ), (50000:ℝ))] (3/4)
      model0 0 u0 z0 =
    some [⟨100000, 100000, 1/2, 100000, 100000, 50000⟩,
          ⟨90000, 90000, 1/2, 100000, 100000, 50000⟩] := by
  unfold gen_path
  rw [if_neg (by norm_num)]
  simp only [List.length_cons, List.length_nil, Nat.zero_mod,
    List.getD_cons_zero]
  rw [gen_path_loop_eq_of_some model0 u0 z0 (3/4) (1/2) 100000 100000 100000
    100000 50000 _ 0 90000 90000 (by norm_num)
    (by simpa [u0] using next_loc_d1)]
  rw [if_neg (by norm_num)]
  rw [if_neg (show ¬ ((⌊(1:ℚ)/2 + 1/4⌋ : ℚ) = 1/2 + 1/4) by norm_num)]
  norm_num
  rw [gen_path_loop, dif_neg (by norm_num)]

/-- Claim C2 (amended): every Path that the simulation returns is a sequence
of PathPoints with non-decreasing (not strictly increasing) game_state,
starting at the supplied drop location with game_state 0.5; each appended
point carries the game_state value used when it was scored, with game_state
advanced by 0.25 only after the append.  The claim's Scenario D
(end_state 1.0) returns no Path at all — the run raises `TypeError` in the
zone update at game_state 1.0 (shadowed `random` import) — and the same
scenario stopped at end_state 0.75 returns exactly 2 points with game_state
values 0.5 and 0.5. -/
theorem c2_path_structure :
    (∀ (drop_x drop_y : ℤ) (pool : List (ℝ × ℝ × ℝ)) (e : ℚ) (model : Model)
        (su : ℕ) (u : ℕ → ℕ) (z : ℕ → ℝ × ℝ) (p : List PathPoint),
      gen_path drop_x drop_y pool e model su u z = some p →
      List.Chain' (fun a b => a.game_state ≤ b.game_state) p ∧
        ∃ q, p.head? = some q ∧ q.x = drop_x ∧ q.y = drop_y ∧
          q.game_state = 1/2) ∧
    (gen_path 100000 100000 [((100000:ℝ), (100000:ℝ), (50000:ℝ))] (3/4)
        model0 0 u0 z0 =
      some [⟨100000, 100000, 1/2, 100000, 100000, 50000⟩,
            ⟨90000, 90000, 1/2, 100000, 100000, 50000⟩] ∧
      ([⟨100000, 100000, 1/2, 100000, 100000, 50000⟩,
        (⟨90000, 90000, 1/2, 100000, 100000, 50000⟩ : PathPoint)].map
          PathPoint.game_state = [1/2, 1/2])) := by
  constructor
  · intro drop_x drop_y pool e model su u z p hsome
    unfold gen_path at hsome
    by_cases hp0 : pool.length = 0
    · rw [if_pos hp0] at hsome
      cases hsome
    · rw [if_neg hp0] at hsome
      obtain ⟨hchain, hhead⟩ := gen_path_loop_chain model u z e
        ((⌈(e - 1/2) * 4⌉).toNat) (1/2) drop_x drop_y
        (pool.getD (su % pool.length) (0, 0, 0)).1
        (pool.getD (su % pool.length) (0, 0, 0)).2.1
        (pool.getD (su % pool.length) (0, 0, 0)).2.2
        [⟨drop_x, drop_y, 1/2,
          (pool.getD (su % pool.length) (0, 0, 0)).1,
          (pool.getD (su % pool.length) (0, 0, 0)).2.1,
          (pool.getD (su % pool.length) (0, 0, 0)).2.2⟩] 0 p le_rfl hsome
        (by
          intro q hq
          simp only [List.mem_cons, List.not_mem_nil, or_false] at hq
          rw [hq])
        (by simp) (by simp)
      refine ⟨hchain, ⟨⟨drop_x, drop_y, 1/2,
        (pool.getD (su % pool.length) (0, 0, 0)).1,
        (pool.getD (su % pool.length) (0, 0, 0)).2.1,
        (pool.getD (su % pool.length) (0, 0, 0)).2.2⟩, ?_, rfl, rfl, rfl⟩⟩
      rw [hhead]
      rfl
  · exact ⟨scenario_d2_eval, rfl⟩

theorem c2_witness :
    List.Chain' (fun a b => a.game_state ≤ b.game_state)
      [⟨100000, 100000, 1/2, 100000, 100000, 50000⟩,
       (⟨90000, 90000, 1/2, 100000, 100000, 50000⟩ : PathPoint)] ∧
    ∃ q, ([⟨100000, 100000, 1/2, 100000, 100000, 50000⟩,
           (⟨90000, 90000, 1/2, 100000, 100000, 50000⟩ : PathPoint)] :
        List PathPoint).head? = some q ∧ q.x = 100000 ∧ q.y = 100000 ∧
      q.game_state = 1/2 :=
  c2_path_structure.1 100000 100000 [((100000:ℝ), (100000:ℝ), (50000:ℝ))]
    (3/4) model0 0 u0 z0 _ scenario_d2_eval

theorem c2_counterexample :
    gen_path 100000 100000 [((100000:ℝ), (100000:ℝ), (50000:ℝ))] 1 model0 0
      u0 z0 = none ∧
    (none : Option (List PathPoint)) ≠
      some [⟨100000, 100000, 1/2, 100000, 100000, 50000⟩,
            ⟨90000, 90000, 3/4, 100000, 100000, 50000⟩,
            ⟨80000, 80000, 1, 100000, 100000, 50000⟩] :=
  ⟨scenario_d_eval_none, by simp⟩

theorem round_raw_eval (r : ℝ) (k : ℤ) (h1 : (k : ℝ) * 10000 ≤ r)
    (h2 : r < ((k : ℝ) + 1) * 10000) : round_raw r = k * 10000 + 5000 := by
  unfold round_raw
  have hfl : ⌊r / 10000⌋ = k := by
    rw [Int.floor_eq_iff]
    constructor
    · rw [le_div_iff (by norm_num : (0:ℝ) < 10000)]
      linarith
    · rw [div_lt_iff (by norm_num : (0:ℝ) < 10000)]
      push_cast
      linarith
  rw [hfl]

theorem cand_eval_c1_empty :
    gen_candidate_locations 5000 5000 105000 5000 20000 = [] := by
  unfold gen_candidate_locations
  simp only [List.flatMap_cons, List.flatMap_nil,
    in_zone_iff (show (0:ℝ) ≤ 20000 by norm_num)]
  norm_num

theorem closest_eval_c1 :
    get_closest_to_safezone 5000 5000 105000 5000 20000 = (85000, 5000) := by
  unfold get_closest_to_safezone
  have hdist : Real.sqrt ((((5000:ℤ):ℝ) - 105000) ^ 2 +
      (((5000:ℤ):ℝ) - 5000) ^ 2) = 100000 := by
    rw [show (((5000:ℤ):ℝ) - 105000) ^ 2 + (((5000:ℤ):ℝ) - 5000) ^ 2 =
      100000 ^ 2 by push_cast; norm_num]
    exact Real.sqrt_sq (by norm_num)
  have hangle : atan2 ((5000:ℝ) - ((5000:ℤ):ℝ))
      ((105000:ℝ) - ((5000:ℤ):ℝ)) = 0 := by
    unfold atan2
    rw [if_pos (by push_cast; norm_num)]
    rw [show ((5000:ℝ) - ((5000:ℤ):ℝ)) / ((105000:ℝ) - ((5000:ℤ):ℝ)) = 0 by
      push_cast; norm_num]
    exact Real.arctan_zero
  rw [hdist, hangle]
  dsimp only
  rw [Real.cos_zero, Real.sin_zero]
  rw [show (((5000:ℤ):ℝ) + (100000 - 20000) * 1) = 85000 by push_cast; norm_num]
  rw [show (((5000:ℤ):ℝ) + (100000 - 20000) * 0) = 5000 by push_cast; norm_num]
  rw [round_raw_eval 85000 8 (by norm_num) (by norm_num)]
  rw [round_raw_eval 5000 0 (by norm_num) (by norm_num)]
  norm_num

theorem next_loc_c1 :
    get_next_loc (1/2) 5000 5000 105000 5000 20000 model0 0 =
      some (85000, 5000) := by
  unfold get_next_loc
  rw [cand_eval_c1_empty]
  rw [if_pos (by simp)]
  rw [closest_eval_c1]

theorem cand_eval_c1b :
    gen_candidate_locations 85000 5000 105000 5000 20000 =
      [(95000, -5000), (95000, 5000), (95000, 15000)] := by
  unfold gen_candidate_locations
  simp only [List.flatMap_cons, List.flatMap_nil,
    in_zone_iff (show (0:ℝ) ≤ 20000 by norm_num)]
  norm_num

theorem bucket_eval_c1b :
    rank_bucket (3/4) 85000 5000 105000 5000 20000 model0 0 =
      [(95000, -5000), (95000, 5000), (95000, 15000)] := by
  unfold rank_bucket
  rw [cand_eval_c1b]
  simp [predict_rank, model0]

theorem next_loc_c1b :
    get_next_loc (3/4) 85000 5000 105000 5000 20000 model0 0 =
      some (95000, -5000) := by
  unfold get_next_loc
  rw [cand_eval_c1b]
  rw [if_neg (by norm_num)]
  rw [if_neg (by simp [predict_rank, model0])]
  rw [if_pos (by rw [bucket_eval_c1b]; norm_num)]
  rw [bucket_eval_c1b]
  norm_num

/-- Claim C1 (amended): when candidate generation returns the empty sequence
at a step with `game_state < end_state`, the stepper computes the single
quantized closest point on the safe-zone boundary and appends it as the next
PathPoint — but it neither tags the path nor terminates the simulation: there
is no `DEAD_END` state.  If the next game_state is not an integer the loop
simply continues from the boundary point; if it is an integer, the zone
update that follows raises `TypeError` (shadowed `random` import) and no Path
is returned at all.  In neither case does the simulation terminate with the
boundary point as the tagged final point of a returned Path. -/
theorem c1_dead_end_appends_and_continues (model : Model) (u : ℕ → ℕ)
    (z : ℕ → ℝ × ℝ) (e gs : ℚ) (cx cy : ℤ) (sx sy sr : ℝ)
    (path : List PathPoint) (step : ℕ)
    (hempty : gen_candidate_locations cx cy sx sy sr = [])
    (hlt : gs < e) :
    get_next_loc gs cx cy sx sy sr model (u step) =
      some (get_closest_to_safezone cx cy sx sy sr) ∧
    (¬ ((⌊gs + 1/4⌋ : ℚ) = gs + 1/4) →
      gen_path_loop model u z e gs cx cy sx sy sr path step =
        gen_path_loop model u z e (gs + 1/4)
          (get_closest_to_safezone cx cy sx sy sr).1
          (get_closest_to_safezone cx cy sx sy sr).2 sx sy sr
          (path ++ [⟨(get_closest_to_safezone cx cy sx sy sr).1,
            (get_closest_to_safezone cx cy sx sy sr).2, gs, sx, sy, sr⟩])
          (step + 1)) ∧
    ((⌊gs + 1/4⌋ : ℚ) = gs + 1/4 →
      gen_path_loop model u z e gs cx cy sx sy sr path step = none) := by
  have hnext : get_next_loc gs cx cy sx sy sr model (u step) =
      some ((get_closest_to_safezone cx cy sx sy sr).1,
            (get_closest_to_safezone cx cy sx sy sr).2) := by
    unfold get_next_loc
    rw [hempty]
    rw [if_pos (by simp)]
  have hns : ¬ ((get_closest_to_safezone cx cy sx sy sr).1 = -1 ∧
      (get_closest_to_safezone cx cy sx sy sr).2 = -1) := by
    rintro ⟨h1, _⟩
    have hm := (get_closest_to_safezone_mod cx cy sx sy sr).1
    rw [h1] at hm
    norm_num at hm
  refine ⟨hnext, ?_, ?_⟩
  · intro hnr
    rw [gen_path_loop_eq_of_some model u z e gs cx cy sx sy sr path step
      _ _ hlt hnext]
    rw [if_neg hns, if_neg hnr]
  · intro hr
    rw [gen_path_loop_eq_of_some model u z e gs cx cy sx sy sr path step
      _ _ hlt hnext]
    rw [if_neg hns, if_pos hr]

theorem c1_witness :
    get_next_loc (1/2) 5000 5000 105000 5000 20000 model0 (u0 0) =
      some (get_closest_to_safezone 5000 5000 105000 5000 20000) ∧
    (¬ ((⌊(1:ℚ)/2 + 1/4⌋ : ℚ) = 1/2 + 1/4) →
      gen_path_loop model0 u0 z0 1 (1/2) 5000 5000 105000 5000 20000 [] 0 =
        gen_path_loop model0 u0 z0 1 (1/2 + 1/4)
          (get_closest_to_safezone 5000 5000 105000 5000 20000).1
          (get_closest_to_safezone 5000 5000 105000 5000 20000).2
          105000 5000 20000
          ([] ++ [⟨(get_closest_to_safezone 5000 5000 105000 5000 20000).1,
            (get_closest_to_safezone 5000 5000 105000 5000 20000).2, 1/2,
            105000, 5000, 20000⟩]) (0 + 1)) ∧
    ((⌊(1:ℚ)/2 + 1/4⌋ : ℚ) = 1/2 + 1/4 →
      gen_path_loop model0 u0 z0 1 (1/2) 5000 5000 105000 5000 20000 [] 0 =
        none) :=
  c1_dead_end_appends_and_continues model0 u0 z0 1 (1/2) 5000 5000 105000
    5000 20000 [] 0 cand_eval_c1_empty (by norm_num)

theorem c1_counterexample :
    gen_candidate_locations 5000 5000 105000 5000 20000 = [] ∧
    gen_path 5000 5000 [((105000:ℝ), (5000:ℝ), (20000:ℝ))] 1 model0 0 u0 z0 =
      none := by
  refine ⟨cand_eval_c1_empty, ?_⟩
  unfold gen_path
  rw [if_neg (by norm_num)]
  simp only [List.length_cons, List.length_nil, Nat.zero_mod,
    List.getD_cons_zero]
  rw [gen_path_loop_eq_of_some model0 u0 z0 1 (1/2) 5000 5000 105000 5000
    20000 _ 0 85000 5000 (by norm_num) (by simpa [u0] using next_loc_c1)]
  rw [if_neg (by norm_num)]
  rw [if_neg (show ¬ ((⌊(1:ℚ)/2 + 1/4⌋ : ℚ) = 1/2 + 1/4) by norm_num)]
  norm_num
  rw [gen_path_loop_eq_of_some model0 u0 z0 1 (3/4) 85000 5000 105000 5000
    20000 _ 1 95000 (-5000) (by norm_num) (by simpa [u0] using next_loc_c1b)]
  rw [if_neg (by norm_num)]
  rw [if_pos (show (⌊(3:ℚ)/4 + 1/4⌋ : ℚ) = 3/4 + 1/4 by norm_num)]
